import Mathlib

/-!
Verification of the routecast-app route-weather core against its code.

The polyline codec, alert deduplication, road-condition derivation,
safety-color thresholds and premium-status logic are shallowly embedded
from the TypeScript sources (`decodePolyline`, `uniqueAlerts`, `uniqById`,
the `RouteScreen` road-condition derivation, `getSafetyColor`,
`getPremiumStatus`).  JavaScript 32-bit integer semantics are modelled
explicitly on `Int`/`Nat`.  Components of the backend engine that are not
present in the sources (the polyline encoder, the §4.5 classifier with
severities, the §4.7 SafetyScorer) are modelled from the specification and
marked as such in their doc comments.
-/

/- ===================== JavaScript 32-bit semantics ===================== -/

/-- JavaScript `ToInt32`: reduce an integer to the range `[-2^31, 2^31)`.
JS bitwise operators coerce both operands with this conversion. -/
def toInt32 (x : Int) : Int :=
  if x % 4294967296 < 2147483648 then x % 4294967296 else x % 4294967296 - 4294967296

/-- The unsigned 32-bit pattern of an integer, as a natural number. -/
def toUInt32 (x : Int) : Nat := (x % 4294967296).toNat

/-- JavaScript `a & b` (32-bit bitwise and on the two's-complement patterns). -/
def jsAnd (a b : Int) : Int := toInt32 ((Nat.land (toUInt32 a) (toUInt32 b) : Nat) : Int)

/-- JavaScript `a | b` (32-bit bitwise or on the two's-complement patterns). -/
def jsOr (a b : Int) : Int := toInt32 ((Nat.lor (toUInt32 a) (toUInt32 b) : Nat) : Int)

/-- JavaScript `a << s`: shift the 32-bit pattern left by `s mod 32`. -/
def jsShl (a : Int) (s : Nat) : Int := toInt32 (((toUInt32 a) <<< (s % 32) : Nat) : Int)

/-- JavaScript `a >> s`: sign-propagating right shift, i.e. floor division
of the `ToInt32` value by `2 ^ (s mod 32)`. -/
def jsShr (a : Int) (s : Nat) : Int := (toInt32 a) / ((2 : Int) ^ (s % 32))

/-- JavaScript `~a`: bitwise not of the `ToInt32` value, i.e. `-v - 1`. -/
def jsNot (a : Int) : Int := -(toInt32 a) - 1

/- ===================== decodePolyline (from the source) ===================== -/

/-- One delta group of `decodePolyline` (`src/unnamed/part_002` lines 66-105 and
`src/frontend/app/route.tsx` lines 145-181): the inner
`do { byte = encoded.charCodeAt(index++) - 63; result |= (byte & 0x1f) << shift;
shift += 5; } while (byte >= 0x20)` loop.  The input string is modelled as the
list of its UTF-16 code units; reading past the end (`charCodeAt` returning
`NaN`) makes `byte & 0x1f` equal `0` and `byte >= 0x20` false, so the loop
terminates.  Returns the accumulated `result` and the remaining code units. -/
def parseGroup : List Nat → Nat → Int → Int × List Nat
  | [], shift, result =>
      (jsOr result (jsShl (jsAnd 0 31) shift), [])
  | c :: rest, shift, result =>
      let byte : Int := (c : Int) - 63
      let result1 := jsOr result (jsShl (jsAnd byte 31) shift)
      if byte ≥ 32 then parseGroup rest (shift + 5) result1
      else (result1, rest)

theorem parseGroup_length_le (l : List Nat) : ∀ (s : Nat) (r : Int),
    (parseGroup l s r).2.length ≤ l.length := by
  induction l with
  | nil => intro s r; simp [parseGroup]
  | cons c rest ih =>
      intro s r
      simp only [parseGroup]
      split
      · exact le_trans (ih _ _) (by simp)
      · simp

theorem parseGroup_cons_length (c : Nat) (rest : List Nat) (s : Nat) (r : Int) :
    (parseGroup (c :: rest) s r).2.length ≤ rest.length := by
  simp only [parseGroup]
  split
  · exact parseGroup_length_le rest _ _
  · simp

/-- The delta reconstruction `result & 1 ? ~(result >> 1) : result >> 1`,
which appears verbatim for both the latitude and the longitude group in
`decodePolyline`. -/
def unzig (result : Int) : Int :=
  if jsAnd result 1 ≠ 0 then jsNot (jsShr result 1) else jsShr result 1

/-- The outer `while (index < encoded.length)` loop of `decodePolyline`:
parse a latitude delta group and a longitude delta group, update the integer
accumulators, and push `(lat / 1e5, lng / 1e5)`.  Division by `1e5` is modelled
exactly in `ℚ`. -/
def decodeLoop : List Nat → Int → Int → List (ℚ × ℚ)
  | [], _, _ => []
  | c :: rest, lat, lng =>
      (((lat + unzig (parseGroup (c :: rest) 0 0).1 : Int) : ℚ) / 100000,
        ((lng + unzig (parseGroup ((parseGroup (c :: rest) 0 0).2) 0 0).1 : Int) : ℚ) / 100000)
        :: decodeLoop (parseGroup ((parseGroup (c :: rest) 0 0).2) 0 0).2
             (lat + unzig (parseGroup (c :: rest) 0 0).1)
             (lng + unzig (parseGroup ((parseGroup (c :: rest) 0 0).2) 0 0).1)
  termination_by l _ _ => l.length
  decreasing_by
    have h1 := parseGroup_cons_length c rest 0 0
    have h2 := parseGroup_length_le (parseGroup (c :: rest) 0 0).2 0 0
    simp only [List.length_cons]
    omega

/-- `decodePolyline` from the source: decode a polyline string (given as its
code-unit list) into coordinates, starting from accumulators `lat = lng = 0`. -/
def decodePolyline (encoded : List Nat) : List (ℚ × ℚ) := decodeLoop encoded 0 0

/-- Step-indexed variant of the outer loop, used to state that the loop
terminates within `length + 1` iterations (`none` means the step budget was
exhausted). -/
def decodeLoopFuel : Nat → List Nat → Int → Int → Option (List (ℚ × ℚ))
  | 0, _, _, _ => none
  | _ + 1, [], _, _ => some []
  | fuel + 1, c :: rest, lat, lng =>
      (decodeLoopFuel fuel (parseGroup ((parseGroup (c :: rest) 0 0).2) 0 0).2
          (lat + unzig (parseGroup (c :: rest) 0 0).1)
          (lng + unzig (parseGroup ((parseGroup (c :: rest) 0 0).2) 0 0).1)).map
        (fun pts =>
          (((lat + unzig (parseGroup (c :: rest) 0 0).1 : Int) : ℚ) / 100000,
            ((lng + unzig (parseGroup ((parseGroup (c :: rest) 0 0).2) 0 0).1 : Int) : ℚ) / 100000)
            :: pts)

/- ===================== Polyline encoder (spec-modelled) ===================== -/

/-- Modelled from the spec: the zig-zag step of the §4.1 encoder
(`value < 0 ? ~(value << 1) : value << 1`); the repository contains only the
decoder, the encoder is described in §4.1. -/
def zigzag (d : Int) : Nat := (if d < 0 then -(d * 2) - 1 else d * 2).toNat

/-- Modelled from the spec: emit one zig-zagged value as 5-bit groups, low bits
first, setting the `0x20` continuation bit on every group but the last, then
offsetting each group by 63 (§4.1 "signed value zig-zag encoded into
base-64-like 5-bit groups"). -/
def encodeChunks (z : Nat) : List Nat :=
  if h : z < 32 then [z + 63]
  else (32 + z % 32 + 63) :: encodeChunks (z / 32)
  termination_by z
  decreasing_by exact Nat.div_lt_self (by omega) (by omega)

/-- Modelled from the spec: the §4.1 encoder loop — round each coordinate to
5-decimal fixed point and emit the deltas from the previous point. -/
def encodeGo : List (ℚ × ℚ) → Int → Int → List Nat
  | [], _, _ => []
  | (la, ln) :: rest, pa, pb =>
      encodeChunks (zigzag (round (la * 100000) - pa)) ++
        (encodeChunks (zigzag (round (ln * 100000) - pb)) ++
          encodeGo rest (round (la * 100000)) (round (ln * 100000)))

/-- Modelled from the spec: `encode(sequence<Coordinate>) -> string` (§4.1),
precision factor 1e5, starting from reference point `(0, 0)`. -/
def encodePolyline (coords : List (ℚ × ℚ)) : List Nat := encodeGo coords 0 0

/-- A 5-decimal fixed-point coordinate pair, as exact rationals. -/
def scaleQ (p : Int × Int) : ℚ × ℚ := ((p.1 : ℚ) / 100000, (p.2 : ℚ) / 100000)

/- ===================== Range behaviour of the JS operators ===================== -/

theorem toInt32_id {x : Int} (h0 : -2147483648 ≤ x) (h1 : x < 2147483648) :
    toInt32 x = x := by
  unfold toInt32; split <;> omega

theorem toInt32_natCast_id (n : Nat) (h : n < 2147483648) :
    toInt32 ((n : Nat) : Int) = ((n : Nat) : Int) :=
  toInt32_id (le_trans (by norm_num) (Int.natCast_nonneg n)) (by exact_mod_cast h)

theorem toUInt32_natCast (n : Nat) (h : n < 4294967296) : toUInt32 ((n : Nat) : Int) = n := by
  unfold toUInt32
  rw [Int.emod_eq_of_lt (Int.natCast_nonneg n) (by exact_mod_cast h)]
  exact Int.toNat_natCast n

theorem jsAnd_31 (n : Nat) (h : n < 4294967296) :
    jsAnd ((n : Nat) : Int) 31 = ((n % 32 : Nat) : Int) := by
  unfold jsAnd
  rw [show ((31 : Int)) = ((31 : Nat) : Int) from rfl]
  rw [toUInt32_natCast n h, toUInt32_natCast 31 (by omega)]
  rw [show Nat.land n 31 = n &&& 31 from rfl]
  rw [show (31 : Nat) = 2 ^ 5 - 1 from rfl, Nat.and_pow_two_sub_one_eq_mod]
  exact toInt32_natCast_id _ (by omega)

theorem jsAnd_1 (n : Nat) (h : n < 4294967296) :
    jsAnd ((n : Nat) : Int) 1 = ((n % 2 : Nat) : Int) := by
  unfold jsAnd
  rw [show ((1 : Int)) = ((1 : Nat) : Int) from rfl]
  rw [toUInt32_natCast n h, toUInt32_natCast 1 (by omega)]
  rw [show Nat.land n 1 = n &&& 1 from rfl, Nat.and_one_is_mod]
  exact toInt32_natCast_id _ (by omega)

theorem jsShl_small (a s : Nat) (hs : s < 32) (h : a * 2 ^ s < 2147483648) :
    jsShl ((a : Nat) : Int) s = ((a * 2 ^ s : Nat) : Int) := by
  unfold jsShl
  have h2 : (1 : Nat) ≤ 2 ^ s := Nat.one_le_two_pow
  have ha : a < 4294967296 := by nlinarith
  rw [toUInt32_natCast a ha, Nat.mod_eq_of_lt hs, Nat.shiftLeft_eq]
  exact toInt32_natCast_id _ h

theorem jsOr_disjoint (r c s : Nat) (hr : r < 2 ^ s) (hsum : c * 2 ^ s + r < 2147483648) :
    jsOr ((r : Nat) : Int) ((c * 2 ^ s : Nat) : Int) = ((r + c * 2 ^ s : Nat) : Int) := by
  have hlor : r ||| c * 2 ^ s = r + c * 2 ^ s := by
    calc r ||| c * 2 ^ s = c * 2 ^ s ||| r := Nat.lor_comm _ _
    _ = 2 ^ s * c ||| r := by rw [mul_comm]
    _ = 2 ^ s * c + r := (Nat.mul_add_lt_is_or hr c).symm
    _ = r + c * 2 ^ s := by ring
  unfold jsOr
  rw [toUInt32_natCast r (by omega), toUInt32_natCast (c * 2 ^ s) (by omega)]
  rw [show Nat.lor r (c * 2 ^ s) = r ||| c * 2 ^ s from rfl, hlor]
  exact toInt32_natCast_id _ (by omega)

theorem jsShr_1 (n : Nat) (h : n < 2147483648) :
    jsShr ((n : Nat) : Int) 1 = ((n / 2 : Nat) : Int) := by
  unfold jsShr
  rw [toInt32_natCast_id n h]
  rw [show ((2 : Int) ^ (1 % 32)) = 2 from by norm_num]
  omega

theorem jsNot_small (x : Int) (h0 : -2147483648 ≤ x) (h1 : x < 2147483648) :
    jsNot x = -x - 1 := by
  unfold jsNot
  rw [toInt32_id h0 h1]

/- ===================== Round-trip of one delta group ===================== -/

theorem parseGroup_encodeChunks (z : Nat) : ∀ (s r : Nat) (rest : List Nat),
    z * 2 ^ s < 134217728 → s ≤ 26 → r < 2 ^ s →
    parseGroup (encodeChunks z ++ rest) s ((r : Nat) : Int) =
      (((r + z * 2 ^ s : Nat) : Int), rest) := by
  induction z using Nat.strong_induction_on with
  | _ z ih =>
    intro s r rest hz hs hr
    have h2s : (2 : Nat) ^ s ≤ 67108864 :=
      le_trans (Nat.pow_le_pow_right (by omega) hs) (by norm_num)
    by_cases h32 : z < 32
    · unfold encodeChunks
      rw [dif_pos h32]
      simp only [List.cons_append, List.nil_append, parseGroup]
      have hbyte : ((z + 63 : Nat) : Int) - 63 = ((z : Nat) : Int) := by push_cast; ring
      rw [hbyte, jsAnd_31 z (by omega), Nat.mod_eq_of_lt h32,
        jsShl_small z s (by omega) (by omega), jsOr_disjoint r z s hr (by omega)]
      rw [if_neg (by exact_mod_cast (by omega : ¬ 32 ≤ z))]
      rfl
    · unfold encodeChunks
      rw [dif_neg h32]
      simp only [List.cons_append, parseGroup]
      have hmlt : z % 32 < 32 := Nat.mod_lt z (by omega)
      have hpow : (2 : Nat) ^ (s + 5) = 2 ^ s * 32 := by rw [pow_add]; norm_num
      have hle : z % 32 ≤ z := Nat.mod_le z 32
      have hmul : z % 32 * 2 ^ s ≤ z * 2 ^ s := Nat.mul_le_mul_right _ hle
      have hlow : r + z % 32 * 2 ^ s < 2 ^ (s + 5) := by
        have h1 : z % 32 * 2 ^ s ≤ 31 * 2 ^ s := Nat.mul_le_mul_right _ (by omega)
        have h2 : (2 : Nat) ^ s > 0 := Nat.pos_pow_of_pos s (by omega)
        rw [hpow]; nlinarith
      have hs5 : (2 : Nat) ^ (s + 5) ≤ 2 ^ 31 := Nat.pow_le_pow_right (by omega) (by omega)
      have hbyte : ((32 + z % 32 + 63 : Nat) : Int) - 63 = ((32 + z % 32 : Nat) : Int) := by
        push_cast; ring
      rw [hbyte, jsAnd_31 (32 + z % 32) (by omega), show (32 + z % 32) % 32 = z % 32 by omega,
        jsShl_small (z % 32) s (by omega) (by omega),
        jsOr_disjoint r (z % 32) s hr (by omega)]
      rw [if_pos (by exact_mod_cast (by omega : 32 ≤ 32 + z % 32))]
      have hdiv32 : z / 32 * 32 ≤ z := Nat.div_mul_le_self z 32
      have hz27 : z / 32 * 2 ^ (s + 5) < 134217728 := by
        have : z / 32 * 2 ^ (s + 5) = z / 32 * 32 * 2 ^ s := by rw [hpow]; ring
        rw [this]
        exact lt_of_le_of_lt (Nat.mul_le_mul_right _ hdiv32) hz
      have hs26 : s + 5 ≤ 26 := by
        have h1 : (2 : Nat) ^ (s + 5) ≤ z * 2 ^ s := by
          rw [hpow, mul_comm (2 ^ s) 32]
          exact Nat.mul_le_mul_right _ (by omega)
        have h2 : (2 : Nat) ^ (s + 5) < 2 ^ 27 := lt_of_le_of_lt h1 (by exact_mod_cast hz)
        have h3 := (Nat.pow_lt_pow_iff_right (by omega : 1 < 2)).mp h2
        omega
      show parseGroup (encodeChunks (z / 32) ++ rest) (s + 5) ((r + z % 32 * 2 ^ s : Nat) : Int) =
        (((r + z * 2 ^ s : Nat) : Int), rest)
      rw [ih (z / 32) (Nat.div_lt_self (by omega) (by omega)) (s + 5) (r + z % 32 * 2 ^ s)
        rest hz27 hs26 hlow]
      have hzz : z % 32 + 32 * (z / 32) = z := Nat.mod_add_div z 32
      have hfin : r + z % 32 * 2 ^ s + z / 32 * 2 ^ (s + 5) = r + z * 2 ^ s := by
        calc r + z % 32 * 2 ^ s + z / 32 * 2 ^ (s + 5)
            = r + (z % 32 + 32 * (z / 32)) * 2 ^ s := by rw [hpow]; ring
        _ = r + z * 2 ^ s := by rw [hzz]
      rw [hfin]

/- ===================== Delta reconstruction round-trip ===================== -/

theorem zigzag_le {d : Int} (hd : d.natAbs ≤ 36000000) : zigzag d ≤ 72000001 := by
  unfold zigzag; split <;> omega

theorem unzig_zigzag (d : Int) (hd : d.natAbs ≤ 36000000) :
    unzig ((zigzag d : Nat) : Int) = d := by
  have hb : -36000000 ≤ d ∧ d ≤ 36000000 := by omega
  unfold unzig
  rcases lt_or_le d 0 with hneg | hpos
  · have hzc : ((zigzag d : Nat) : Int) = -(d * 2) - 1 := by
      unfold zigzag; rw [if_pos hneg, Int.toNat_of_nonneg (by omega)]
    have hzlt : zigzag d < 2147483648 := by omega
    have hmod : zigzag d % 2 = 1 := by omega
    have hdiv : ((zigzag d / 2 : Nat) : Int) = -d - 1 := by omega
    rw [jsAnd_1 (zigzag d) (by omega), jsShr_1 (zigzag d) hzlt, hmod]
    rw [if_pos (by norm_num : ¬ ((1 : Nat) : Int) = 0)]
    rw [jsNot_small _ (le_trans (by norm_num) (Int.natCast_nonneg _)) (by omega), hdiv]
    ring
  · have hzc : ((zigzag d : Nat) : Int) = d * 2 := by
      unfold zigzag; rw [if_neg (by omega), Int.toNat_of_nonneg (by omega)]
    have hzlt : zigzag d < 2147483648 := by omega
    have hmod : zigzag d % 2 = 0 := by omega
    have hdiv : ((zigzag d / 2 : Nat) : Int) = d := by omega
    rw [jsAnd_1 (zigzag d) (by omega), jsShr_1 (zigzag d) hzlt, hmod]
    rw [if_neg (by simp)]
    exact hdiv

theorem encodeChunks_ne_nil (z : Nat) : encodeChunks z ≠ [] := by
  unfold encodeChunks; split <;> simp

/- ===================== Full round-trip ===================== -/

theorem decodeLoop_encodeGo (l : List (Int × Int)) : ∀ (pa pb : Int),
    (∀ p ∈ l, p.1.natAbs ≤ 18000000 ∧ p.2.natAbs ≤ 18000000) →
    pa.natAbs ≤ 18000000 → pb.natAbs ≤ 18000000 →
    decodeLoop (encodeGo (l.map scaleQ) pa pb) pa pb = l.map scaleQ := by
  induction l with
  | nil =>
      intro pa pb h ha hb
      simp [encodeGo, decodeLoop]
  | cons p rest ih =>
      obtain ⟨a, b⟩ := p
      intro pa pb h ha hb
      have hab := h (a, b) (List.mem_cons_self _ _)
      have hra : round (((a : Int) : ℚ) / 100000 * 100000) = a := by
        rw [div_mul_cancel₀ _ (by norm_num : (100000 : ℚ) ≠ 0)]
        exact round_intCast a
      have hrb : round (((b : Int) : ℚ) / 100000 * 100000) = b := by
        rw [div_mul_cancel₀ _ (by norm_num : (100000 : ℚ) ≠ 0)]
        exact round_intCast b
      have hgo : encodeGo (((a, b) :: rest).map scaleQ) pa pb =
          encodeChunks (zigzag (a - pa)) ++
            (encodeChunks (zigzag (b - pb)) ++ encodeGo (rest.map scaleQ) a b) := by
        simp only [List.map_cons, scaleQ, encodeGo, hra, hrb]
      have hd1 : (a - pa).natAbs ≤ 36000000 := by omega
      have hd2 : (b - pb).natAbs ≤ 36000000 := by omega
      have hz1 := zigzag_le hd1
      have hz2 := zigzag_le hd2
      have hp1 : parseGroup (encodeChunks (zigzag (a - pa)) ++
            (encodeChunks (zigzag (b - pb)) ++ encodeGo (rest.map scaleQ) a b)) 0 0 =
          (((zigzag (a - pa) : Nat) : Int),
            encodeChunks (zigzag (b - pb)) ++ encodeGo (rest.map scaleQ) a b) := by
        have := parseGroup_encodeChunks (zigzag (a - pa)) 0 0
          (encodeChunks (zigzag (b - pb)) ++ encodeGo (rest.map scaleQ) a b)
          (by rw [pow_zero, mul_one]; omega) (by omega) (by norm_num)
        simpa using this
      have hp2 : parseGroup (encodeChunks (zigzag (b - pb)) ++ encodeGo (rest.map scaleQ) a b) 0 0 =
          (((zigzag (b - pb) : Nat) : Int), encodeGo (rest.map scaleQ) a b) := by
        have := parseGroup_encodeChunks (zigzag (b - pb)) 0 0
          (encodeGo (rest.map scaleQ) a b)
          (by rw [pow_zero, mul_one]; omega) (by omega) (by norm_num)
        simpa using this
      obtain ⟨c, cs, hc⟩ : ∃ c cs, encodeChunks (zigzag (a - pa)) = c :: cs := by
        cases hE : encodeChunks (zigzag (a - pa)) with
        | nil => exact absurd hE (encodeChunks_ne_nil _)
        | cons c cs => exact ⟨c, cs, rfl⟩
      rw [hgo, hc, List.cons_append, decodeLoop, ← List.cons_append, ← hc, hp1, hp2]
      simp only [unzig_zigzag _ hd1, unzig_zigzag _ hd2]
      have hsa : pa + (a - pa) = a := by ring
      have hsb : pb + (b - pb) = b := by ring
      rw [hsa, hsb]
      have hrest : decodeLoop (encodeGo (rest.map scaleQ) a b) a b = rest.map scaleQ :=
        ih a b (fun q hq => h q (List.mem_cons_of_mem _ hq)) (by omega) (by omega)
      rw [hrest]
      simp [scaleQ]

/- ===================== Termination and output-size facts ===================== -/

theorem toInt32_toUInt32 (x : Int) : toInt32 ((toUInt32 x : Nat) : Int) = toInt32 x := by
  unfold toInt32 toUInt32
  rw [Int.toNat_of_nonneg (Int.emod_nonneg x (by norm_num))]
  rw [Int.emod_emod_of_dvd x (dvd_refl _)]

theorem parseGroup_nil (s : Nat) (r : Int) : parseGroup [] s r = (toInt32 r, []) := by
  simp only [parseGroup]
  have h1 : jsAnd 0 31 = 0 := by decide
  have h2 : jsShl 0 s = 0 := by
    unfold jsShl toUInt32
    norm_num
    decide
  rw [h1, h2]
  unfold jsOr
  have h3 : toUInt32 0 = 0 := by decide
  rw [h3, show Nat.lor (toUInt32 r) 0 = toUInt32 r from Nat.or_zero _]
  rw [toInt32_toUInt32]

theorem decodeLoopFuel_enough (fuel : Nat) : ∀ (l : List Nat) (lat lng : Int),
    l.length < fuel → decodeLoopFuel fuel l lat lng = some (decodeLoop l lat lng) := by
  induction fuel with
  | zero => intro l lat lng h; exact absurd h (Nat.not_lt_zero _)
  | succ fuel ih =>
      intro l lat lng h
      cases l with
      | nil => simp [decodeLoopFuel, decodeLoop]
      | cons c rest =>
          have hX : (parseGroup ((parseGroup (c :: rest) 0 0).2) 0 0).2.length < fuel := by
            have h1 := parseGroup_cons_length c rest 0 0
            have h2 := parseGroup_length_le (parseGroup (c :: rest) 0 0).2 0 0
            simp only [List.length_cons] at h
            omega
          rw [show decodeLoopFuel (fuel + 1) (c :: rest) lat lng =
              (decodeLoopFuel fuel (parseGroup ((parseGroup (c :: rest) 0 0).2) 0 0).2
                (lat + unzig (parseGroup (c :: rest) 0 0).1)
                (lng + unzig (parseGroup ((parseGroup (c :: rest) 0 0).2) 0 0).1)).map
              (fun pts =>
                (((lat + unzig (parseGroup (c :: rest) 0 0).1 : Int) : ℚ) / 100000,
                  ((lng + unzig (parseGroup ((parseGroup (c :: rest) 0 0).2) 0 0).1 : Int) : ℚ) /
                    100000) :: pts) from rfl]
          rw [ih _ _ _ hX]
          conv_rhs => rw [decodeLoop]
          rfl

theorem decodeLoop_length_aux (n : Nat) : ∀ (l : List Nat), l.length ≤ n → ∀ (lat lng : Int),
    (decodeLoop l lat lng).length ≤ l.length := by
  induction n with
  | zero =>
      intro l h lat lng
      cases l with
      | nil => simp [decodeLoop]
      | cons c rest => simp at h
  | succ n ih =>
      intro l h lat lng
      cases l with
      | nil => simp [decodeLoop]
      | cons c rest =>
          rw [decodeLoop]
          simp only [List.length_cons]
          have h1 := parseGroup_cons_length c rest 0 0
          have h2 := parseGroup_length_le (parseGroup (c :: rest) 0 0).2 0 0
          simp only [List.length_cons] at h
          have h3 := ih (parseGroup ((parseGroup (c :: rest) 0 0).2) 0 0).2 (by omega)
            (lat + unzig (parseGroup (c :: rest) 0 0).1)
            (lng + unzig (parseGroup ((parseGroup (c :: rest) 0 0).2) 0 0).1)
          omega

/- ===================== Claim theorems: polyline codec ===================== -/

/-- C3: for every finite coordinate sequence within valid latitude/longitude
bounds (here given on the 1e-5 fixed-point grid, i.e. up to the configured
precision), decoding the string produced by encoding the sequence yields the
original sequence: `decode (encode p) = p`. -/
theorem polyline_roundtrip (l : List (Int × Int))
    (hb : ∀ p ∈ l, p.1.natAbs ≤ 9000000 ∧ p.2.natAbs ≤ 18000000) :
    decodePolyline (encodePolyline (l.map scaleQ)) = l.map scaleQ := by
  unfold decodePolyline encodePolyline
  exact decodeLoop_encodeGo l 0 0
    (fun p hp => ⟨le_trans (hb p hp).1 (by omega), (hb p hp).2⟩) (by simp) (by simp)

/-- Witness for C3 at a concrete two-point route (38.5°N 77°W and a nearby
point). -/
theorem polyline_roundtrip_witness :
    (∀ p ∈ [((3850000 : Int), (-7700000 : Int)), (3850100, -7700250)],
        p.1.natAbs ≤ 9000000 ∧ p.2.natAbs ≤ 18000000) ∧
    decodePolyline (encodePolyline
        ([((3850000 : Int), (-7700000 : Int)), (3850100, -7700250)].map scaleQ)) =
      [((3850000 : Int), (-7700000 : Int)), (3850100, -7700250)].map scaleQ :=
  ⟨by decide, polyline_roundtrip _ (by decide)⟩

/-- C4 counterexample: a truncated polyline (a single delta group, so an odd
number of groups) does not fail with any error — `decodePolyline` returns a
normal coordinate list, treating the missing longitude group as delta 0. -/
theorem decodePolyline_truncated_no_error :
    decodePolyline [64] = [((-1 : ℚ) / 100000, 0)] := by
  unfold decodePolyline
  rw [decodeLoop]
  have hX : (parseGroup ((parseGroup ((64 : Nat) :: ([] : List Nat)) 0 0).2) 0 0).2 =
      ([] : List Nat) := by decide
  rw [hX, decodeLoop]
  have h1 : unzig (parseGroup ((64 : Nat) :: ([] : List Nat)) 0 0).1 = -1 := by decide
  have h2 : unzig (parseGroup ((parseGroup ((64 : Nat) :: ([] : List Nat)) 0 0).2) 0 0).1 = 0 := by
    decide
  rw [h1, h2]
  norm_num

/-- C4 (amended): `decodePolyline` never fails — truncated input is decoded
best-effort into an ordinary (finite, bounded-length) coordinate list — and
decoding succeeds exactly on every string produced by `encodePolyline` at the
same 1e-5 precision. -/
theorem polyline_decode_total_and_roundtrip (l : List (Int × Int))
    (hb : ∀ p ∈ l, p.1.natAbs ≤ 9000000 ∧ p.2.natAbs ≤ 18000000) :
    decodePolyline (encodePolyline (l.map scaleQ)) = l.map scaleQ ∧
    ∀ chars : List Nat, (decodePolyline chars).length ≤ chars.length := by
  constructor
  · unfold decodePolyline encodePolyline
    exact decodeLoop_encodeGo l 0 0
      (fun p hp => ⟨le_trans (hb p hp).1 (by omega), (hb p hp).2⟩) (by simp) (by simp)
  · intro chars
    exact decodeLoop_length_aux chars.length chars (le_refl _) 0 0

/-- Witness for the amended C4 at a concrete one-point route. -/
theorem polyline_decode_total_and_roundtrip_witness :
    (∀ p ∈ [((100 : Int), (-200 : Int))], p.1.natAbs ≤ 9000000 ∧ p.2.natAbs ≤ 18000000) ∧
    (decodePolyline (encodePolyline ([((100 : Int), (-200 : Int))].map scaleQ)) =
        [((100 : Int), (-200 : Int))].map scaleQ ∧
      ∀ chars : List Nat, (decodePolyline chars).length ≤ chars.length) :=
  ⟨by decide, polyline_decode_total_and_roundtrip _ (by decide)⟩

/-- C9: `decodePolyline` is total — the outer loop terminates within
`length + 1` iterations on every input (the index strictly increases each
iteration), and reading past the end of the string ends the inner
continuation-bit loop normally instead of raising an error. -/
theorem decodePolyline_total :
    (∀ chars : List Nat, decodeLoopFuel (chars.length + 1) chars 0 0 =
      some (decodePolyline chars)) ∧
    (∀ (s : Nat) (r : Int), parseGroup [] s r = (toInt32 r, [])) ∧
    (∀ (c : Nat) (rest : List Nat) (s : Nat) (r : Int),
      (parseGroup (c :: rest) s r).2.length < (c :: rest).length) := by
  refine ⟨fun chars => decodeLoopFuel_enough _ _ _ _ (by omega), parseGroup_nil, ?_⟩
  intro c rest s r
  have h := parseGroup_cons_length c rest s r
  simp only [List.length_cons]
  omega

/- ===================== Alert deduplication (from the source) ===================== -/

/-- The `WeatherAlert` record of `src/unnamed/part_002` (lines 31-39). -/
structure WeatherAlert where
  id : String
  headline : String
  severity : String
  event : String
  description : String
  areas : Option String
deriving DecidableEq

/-- `uniqueAlerts` from `src/unnamed/part_002` (lines 183-186):
`allAlerts.filter((alert, index, self) => index === self.findIndex((a) => a.id === alert.id))`.
The element/index pairs of `filter`'s callback are modelled with `List.enum`. -/
def uniqueAlerts (allAlerts : List WeatherAlert) : List WeatherAlert :=
  ((allAlerts.enum).filter
      (fun ia => allAlerts.findIdx? (fun a => a.id == ia.2.id) == some ia.1)).map
    (fun ia => ia.2)

/-- The recursion of `uniqById` from `src/frontend/app/index.tsx` (lines 43-52),
with the JS `Set` of seen ids modelled as a list queried by membership. -/
def uniqByIdGo (seen : List String) : List WeatherAlert → List WeatherAlert
  | [] => []
  | x :: xs => if x.id ∈ seen then uniqByIdGo seen xs else x :: uniqByIdGo (x.id :: seen) xs

/-- `uniqById` from `src/frontend/app/index.tsx` (lines 43-52), instantiated at
`WeatherAlert` (the source is generic over records with a string `id`). -/
def uniqById (arr : List WeatherAlert) : List WeatherAlert := uniqByIdGo [] arr

theorem uniqByIdGo_congr (xs : List WeatherAlert) : ∀ (s1 s2 : List String),
    (∀ t, t ∈ s1 ↔ t ∈ s2) → uniqByIdGo s1 xs = uniqByIdGo s2 xs := by
  induction xs with
  | nil => intro s1 s2 h; rfl
  | cons x xs ih =>
      intro s1 s2 h
      simp only [uniqByIdGo]
      by_cases hx : x.id ∈ s1
      · rw [if_pos hx, if_pos ((h x.id).mp hx)]
        exact ih s1 s2 h
      · rw [if_neg hx, if_neg (fun hc => hx ((h x.id).mpr hc))]
        rw [ih (x.id :: s1) (x.id :: s2) (by intro t; simp [h t])]

theorem findIdx?_first_at (p : WeatherAlert → Bool) (y : WeatherAlert) (hy : p y = true)
    (ys : List WeatherAlert) : ∀ (pre : List WeatherAlert) (i : Nat),
    ((pre ++ y :: ys).findIdx? p i = some (i + pre.length) ↔ ∀ b ∈ pre, p b = false) := by
  intro pre
  induction pre with
  | nil =>
      intro i
      simp [List.findIdx?_cons, hy]
  | cons b pre ih =>
      intro i
      rw [List.cons_append, List.findIdx?_cons]
      by_cases hb : p b = true
      · rw [if_pos hb]
        simp only [List.length_cons]
        constructor
        · intro h
          have : i = i + (pre.length + 1) := by
            injection h
          omega
        · intro h
          exact absurd hb (by simpa using h b (List.mem_cons_self _ _))
      · rw [if_neg hb]
        have h1 := ih (i + 1)
        constructor
        · intro h
          intro b2 hb2
          rcases List.mem_cons.mp hb2 with hb2 | hb2
          · subst hb2; simpa using hb
          · refine (h1.mp ?_) b2 hb2
            rw [h]
            congr 1
            simp
            omega
        · intro h
          have h2 : (pre ++ y :: ys).findIdx? p (i + 1) = some (i + 1 + pre.length) :=
            h1.mpr (fun b2 hb2 => h b2 (List.mem_cons_of_mem _ hb2))
          rw [h2]
          congr 1
          simp
          omega

theorem uniqueAux_eq (xs : List WeatherAlert) : ∀ (pre : List WeatherAlert),
    ((List.enumFrom pre.length xs).filter
        (fun ia => (pre ++ xs).findIdx? (fun a => a.id == ia.2.id) == some ia.1)).map
      (fun ia => ia.2) = uniqByIdGo (pre.map (fun a => a.id)) xs := by
  induction xs with
  | nil => intro pre; simp [uniqByIdGo]
  | cons y ys ih =>
      intro pre
      rw [List.enumFrom_cons, List.filter_cons]
      have hkey : ((pre ++ y :: ys).findIdx? (fun a => a.id == y.id) = some pre.length ↔
          ∀ b ∈ pre, (b.id == y.id) = false) := by
        have := findIdx?_first_at (fun a => a.id == y.id) y (by simp) ys pre 0
        simpa using this
      have hmem : (y.id ∈ pre.map (fun a => a.id)) ↔ ¬ (∀ b ∈ pre, (b.id == y.id) = false) := by
        simp only [List.mem_map]
        constructor
        · rintro ⟨b, hb, hid⟩ hall
          have := hall b hb
          rw [hid] at this
          simp at this
        · intro h
          by_contra hc
          apply h
          intro b hb
          by_contra hbc
          exact hc ⟨b, hb, by simpa using hbc⟩
      have hstep : ∀ (pre2 : List WeatherAlert), pre2 = pre ++ [y] →
          ((List.enumFrom (pre.length + 1) ys).filter
              (fun ia => (pre ++ y :: ys).findIdx? (fun a => a.id == ia.2.id) == some ia.1)).map
            (fun ia => ia.2) = uniqByIdGo ((pre ++ [y]).map (fun a => a.id)) ys := by
        intro pre2 hpre2
        have h1 := ih (pre ++ [y])
        rw [show (pre ++ [y]).length = pre.length + 1 by simp] at h1
        rw [show (pre ++ [y]) ++ ys = pre ++ y :: ys by simp] at h1
        exact h1
      by_cases hy : y.id ∈ pre.map (fun a => a.id)
      · have hnotfirst : ¬ ((pre ++ y :: ys).findIdx? (fun a => a.id == y.id) = some pre.length) :=
          fun hc => (hmem.mp hy) (hkey.mp hc)
        rw [if_neg (by simpa using hnotfirst)]
        rw [hstep _ rfl]
        simp only [uniqByIdGo, if_pos hy]
        apply uniqByIdGo_congr
        intro t
        simp only [List.map_append, List.map_cons, List.map_nil, List.mem_append,
          List.mem_singleton, List.mem_cons]
        constructor
        · rintro (ht | ht | ht)
          · exact ht
          · rw [ht]; exact hy
          · cases ht
        · intro ht; exact Or.inl ht
      · have hfirst : (pre ++ y :: ys).findIdx? (fun a => a.id == y.id) = some pre.length :=
          hkey.mpr (by
            intro b hb
            by_contra hbc
            exact hy (by
              refine List.mem_map.mpr ⟨b, hb, ?_⟩
              simpa using hbc))
        rw [if_pos (by simpa using hfirst)]
        rw [List.map_cons]
        rw [hstep _ rfl]
        simp only [uniqByIdGo, if_neg hy]
        congr 1
        apply uniqByIdGo_congr
        intro t
        simp only [List.map_append, List.map_cons, List.map_nil, List.mem_append,
          List.mem_singleton, List.mem_cons]
        tauto

theorem uniqueAlerts_eq_uniqById (l : List WeatherAlert) : uniqueAlerts l = uniqById l := by
  have h := uniqueAux_eq l []
  simpa [uniqueAlerts, uniqById, List.enum] using h

theorem uniqByIdGo_sublist (xs : List WeatherAlert) : ∀ (seen : List String),
    (uniqByIdGo seen xs).Sublist xs := by
  induction xs with
  | nil => intro seen; simp [uniqByIdGo]
  | cons x xs ih =>
      intro seen
      simp only [uniqByIdGo]
      split
      · exact (ih seen).cons x
      · exact (ih (x.id :: seen)).cons₂ x

theorem uniqByIdGo_countP_zero (xs : List WeatherAlert) : ∀ (seen : List String) (s : String),
    s ∈ seen → (uniqByIdGo seen xs).countP (fun b => b.id == s) = 0 := by
  induction xs with
  | nil => intro seen s h; rfl
  | cons x xs ih =>
      intro seen s h
      simp only [uniqByIdGo]
      by_cases hx : x.id ∈ seen
      · rw [if_pos hx]; exact ih seen s h
      · rw [if_neg hx]
        have hne : (x.id == s) = false := by
          have hns : x.id ≠ s := fun hc => hx (hc ▸ h)
          simpa using hns
        simpa [List.countP_cons, hne] using ih (x.id :: seen) s (List.mem_cons_of_mem _ h)

theorem uniqByIdGo_countP_one (xs : List WeatherAlert) : ∀ (seen : List String) (s : String),
    s ∉ seen → s ∈ xs.map (fun a => a.id) →
    (uniqByIdGo seen xs).countP (fun b => b.id == s) = 1 := by
  induction xs with
  | nil => intro seen s h hmem; simp at hmem
  | cons x xs ih =>
      intro seen s h hmem
      simp only [uniqByIdGo]
      by_cases hx : x.id ∈ seen
      · rw [if_pos hx]
        have hxs : s ∈ xs.map (fun a => a.id) := by
          rcases List.mem_map.mp hmem with ⟨b, hb, hid⟩
          rcases List.mem_cons.mp hb with hb | hb
          · exact absurd (by rw [← hid, hb]; exact hx) h
          · exact List.mem_map.mpr ⟨b, hb, hid⟩
        exact ih seen s h hxs
      · rw [if_neg hx]
        by_cases hxe : x.id = s
        · subst hxe
          have h0 := uniqByIdGo_countP_zero xs (x.id :: seen) x.id (List.mem_cons_self _ _)
          rw [List.countP_cons, h0]
          simp
        · have hne : (x.id == s) = false := by simpa using hxe
          have hxs : s ∈ xs.map (fun a => a.id) := by
            rcases List.mem_map.mp hmem with ⟨b, hb, hid⟩
            rcases List.mem_cons.mp hb with hb | hb
            · exact absurd (by rw [← hid, hb]) hxe
            · exact List.mem_map.mpr ⟨b, hb, hid⟩
          have hrec := ih (x.id :: seen) s (by
            intro hc
            rcases List.mem_cons.mp hc with hc | hc
            · exact hxe hc.symm
            · exact h hc) hxs
          simpa [List.countP_cons, hne] using hrec

theorem uniqByIdGo_idem (xs : List WeatherAlert) : ∀ (seen : List String),
    uniqByIdGo seen (uniqByIdGo seen xs) = uniqByIdGo seen xs := by
  induction xs with
  | nil => intro seen; rfl
  | cons x xs ih =>
      intro seen
      simp only [uniqByIdGo]
      by_cases hx : x.id ∈ seen
      · rw [if_pos hx]; exact ih seen
      · rw [if_neg hx]
        simp only [uniqByIdGo, if_neg hx]
        rw [ih (x.id :: seen)]

/- ===================== Claim theorems: alert deduplication ===================== -/

/-- C5: the route-level deduplicated alert list keeps each distinct alert id
exactly once; the output is a sublist of the input (so alerts appear in order
of first appearance); and identity is decided by `id` alone — the
`findIndex`-based `uniqueAlerts` agrees with the seen-set based `uniqById`,
which never inspects headline or description. -/
theorem uniqueAlerts_spec (l : List WeatherAlert) :
    uniqueAlerts l = uniqById l ∧
    (∀ a ∈ l, (uniqueAlerts l).countP (fun b => b.id == a.id) = 1) ∧
    (uniqueAlerts l).Sublist l := by
  refine ⟨uniqueAlerts_eq_uniqById l, ?_, ?_⟩
  · intro a ha
    rw [uniqueAlerts_eq_uniqById l]
    exact uniqByIdGo_countP_one l [] a.id (by simp)
      (List.mem_map.mpr ⟨a, ha, rfl⟩)
  · rw [uniqueAlerts_eq_uniqById l]
    exact uniqByIdGo_sublist l []

/-- Witness for C5: two alerts share id "a" (with different headlines), one has
id "b"; the duplicate is dropped, each id appears exactly once. -/
theorem uniqueAlerts_spec_witness :
    (uniqueAlerts
        [⟨"a", "h1", "severe", "Flood Warning", "d1", none⟩,
          ⟨"b", "h2", "minor", "Wind Advisory", "d2", none⟩,
          ⟨"a", "other headline", "severe", "Flood Warning", "d3", none⟩] =
      uniqById
        [⟨"a", "h1", "severe", "Flood Warning", "d1", none⟩,
          ⟨"b", "h2", "minor", "Wind Advisory", "d2", none⟩,
          ⟨"a", "other headline", "severe", "Flood Warning", "d3", none⟩]) ∧
    (uniqueAlerts
        [⟨"a", "h1", "severe", "Flood Warning", "d1", none⟩,
          ⟨"b", "h2", "minor", "Wind Advisory", "d2", none⟩,
          ⟨"a", "other headline", "severe", "Flood Warning", "d3", none⟩]).countP
      (fun b => b.id == (⟨"a", "h1", "severe", "Flood Warning", "d1", none⟩ :
        WeatherAlert).id) = 1 := by
  refine ⟨(uniqueAlerts_spec _).1, ?_⟩
  exact (uniqueAlerts_spec
    [⟨"a", "h1", "severe", "Flood Warning", "d1", none⟩,
      ⟨"b", "h2", "minor", "Wind Advisory", "d2", none⟩,
      ⟨"a", "other headline", "severe", "Flood Warning", "d3", none⟩]).2.1
    ⟨"a", "h1", "severe", "Flood Warning", "d1", none⟩ (List.mem_cons_self _ _)

/-- C6: alert deduplication is idempotent — deduplicating an
already-deduplicated list returns it unchanged (for both implementations) —
and it preserves relative order (the output is a sublist of the input, so each
kept first occurrence appears in input order). -/
theorem dedup_idempotent (l : List WeatherAlert) :
    uniqueAlerts (uniqueAlerts l) = uniqueAlerts l ∧
    uniqById (uniqById l) = uniqById l ∧
    (uniqById l).Sublist l := by
  have hq : uniqById (uniqById l) = uniqById l := uniqByIdGo_idem l []
  refine ⟨?_, hq, uniqByIdGo_sublist l []⟩
  rw [uniqueAlerts_eq_uniqById l, uniqueAlerts_eq_uniqById (uniqById l)]
  exact hq

/- ===================== String helpers (JS semantics) ===================== -/

/-- JavaScript `String.prototype.toLowerCase` (ASCII range, which is all the
rule keywords need), in a form the kernel can evaluate. -/
def jsToLower (s : String) : String := String.mk (s.data.map Char.toLower)

/-- JavaScript `String.prototype.includes`: substring containment. -/
def strIncludes (s sub : String) : Bool :=
  s.data.tails.any (fun t => sub.data.isPrefixOf t)

/-- The leading-digits part of JavaScript `parseInt` (radix 10): `none` models
the `NaN` result when no digits are present. -/
def parseIntDigits (cs : List Char) : Option Nat :=
  let ds := cs.takeWhile Char.isDigit
  if ds.isEmpty then none
  else some (ds.foldl (fun a c => a * 10 + (c.toNat - 48)) 0)

/-- JavaScript `parseInt(s)` (radix 10): skip leading whitespace, read an
optional sign and then the longest digit prefix; `none` models `NaN`. -/
def parseInt (s : String) : Option Int :=
  match s.data.dropWhile (fun c => c = ' ' ∨ c = '\t' ∨ c = '\n' ∨ c = '\r') with
  | '-' :: rest => (parseIntDigits rest).map (fun n => -(n : Int))
  | '+' :: rest => (parseIntDigits rest).map (fun n => (n : Int))
  | rest => (parseIntDigits rest).map (fun n => (n : Int))

namespace ConditionsScreen

/-- `WeatherData` of the road-conditions screen (`src/unnamed/part_002`
lines 771-776). -/
structure WeatherData where
  temperature : Option Int
  conditions : Option String
  wind_speed : Option String
  humidity : Option Int

/-- `WeatherAlert` of the road-conditions screen (`src/unnamed/part_002`
lines 778-782). -/
structure WeatherAlert where
  event : String
  headline : String
  severity : String
deriving DecidableEq

/-- `WaypointWeather` of the road-conditions screen (waypoint coordinates are
irrelevant to the classification and omitted). -/
structure WaypointWeather where
  weather : Option WeatherData
  alerts : List WeatherAlert

/-- The five derived display fields of the road-condition derivation
(`condIcon`, `condLabel`, `condColor`, `condDesc`, `roadSurface`). -/
structure RoadCond where
  condIcon : String
  condLabel : String
  condColor : String
  condDesc : String
  roadSurface : String
deriving DecidableEq

/-- `const temp = wp.weather?.temperature || 50` (`src/unnamed/part_002`
line 1403): optional chaining yields `undefined` when the snapshot is
missing, and `|| 50` replaces `undefined`, `null` and the falsy reading `0`
by 50. -/
def effTemp (weather : Option WeatherData) : Int :=
  match weather with
  | none => 50
  | some w =>
      match w.temperature with
      | none => 50
      | some t => if t = 0 then 50 else t

/-- `const conditions = (wp.weather?.conditions || '').toLowerCase()`
(`src/unnamed/part_002` line 1404). -/
def condText (weather : Option WeatherData) : String :=
  jsToLower
    (match weather with
    | none => ""
    | some w =>
        match w.conditions with
        | none => ""
        | some c => c)

/-- `const windSpeed = wp.weather?.wind_speed ? parseInt(wp.weather.wind_speed) : 0`
(`src/unnamed/part_002` line 1406); the empty string is falsy, `none` models
`NaN` from `parseInt`. -/
def windVal (weather : Option WeatherData) : Option Int :=
  match weather with
  | none => some 0
  | some w =>
      match w.wind_speed with
      | none => some 0
      | some s => if s = "" then some 0 else parseInt s

/-- The guard `windSpeed > 30` (`NaN > 30` is false). -/
def windGt30 (weather : Option WeatherData) : Bool :=
  match windVal weather with
  | some v => decide (v > 30)
  | none => false

/-- The road-condition derivation of `RouteScreen` (`src/unnamed/part_002`
lines 1401-1462): the `if (hasAlert) ... else if ...` chain assigning
`condIcon`/`condLabel`/`condColor`/`condDesc`/`roadSurface`. -/
def deriveRoadCondition (wp : WaypointWeather) : RoadCond :=
  let temp := effTemp wp.weather
  let conditions := condText wp.weather
  if wp.alerts.length > 0 then
    { condIcon := "⚠️", condLabel := "HAZARD", condColor := "#ef4444",
      condDesc :=
        match wp.alerts with
        | [] => "Weather alert active"
        | a :: _ => if a.event = "" then "Weather alert active" else a.event,
      roadSurface := "Check conditions before driving" }
  else if temp ≤ 32 ∧ (strIncludes conditions "rain" || strIncludes conditions "freezing" ||
      strIncludes conditions "drizzle") then
    { condIcon := "🧊", condLabel := "ICY", condColor := "#ef4444",
      condDesc := "BLACK ICE LIKELY - " ++ toString temp ++ "°F",
      roadSurface := "Roads may be ice-covered. Reduce speed significantly." }
  else if temp ≤ 32 ∧ strIncludes conditions "snow" then
    { condIcon := "❄️", condLabel := "SNOW", condColor := "#60a5fa",
      condDesc := "SNOW-COVERED ROADS - " ++ toString temp ++ "°F",
      roadSurface := "Snow accumulation on roadway. Use caution." }
  else if 32 < temp ∧ temp ≤ 40 ∧ strIncludes conditions "snow" then
    { condIcon := "🌨️", condLabel := "SLUSH", condColor := "#f59e0b",
      condDesc := "SLUSHY CONDITIONS - " ++ toString temp ++ "°F",
      roadSurface := "Wet, slushy roads. Reduced traction." }
  else if strIncludes conditions "fog" || strIncludes conditions "mist" then
    { condIcon := "🌫️", condLabel := "FOG", condColor := "#9ca3af",
      condDesc := "LIMITED VISIBILITY",
      roadSurface := "Use low beams. Increase following distance." }
  else if strIncludes conditions "rain" || strIncludes conditions "shower" ||
      strIncludes conditions "drizzle" then
    { condIcon := "💧", condLabel := "WET", condColor := "#3b82f6",
      condDesc := "WET ROADS",
      roadSurface := "Reduced traction. Watch for hydroplaning." }
  else if strIncludes conditions "thunder" || strIncludes conditions "storm" then
    { condIcon := "⛈️", condLabel := "STORM", condColor := "#7c3aed",
      condDesc := "STORM CONDITIONS",
      roadSurface := "Heavy rain, possible flooding. Consider delaying." }
  else if windGt30 wp.weather then
    { condIcon := "💨", condLabel := "WINDY", condColor := "#f59e0b",
      condDesc := "HIGH WINDS - " ++
        (match windVal wp.weather with
        | some v => toString v
        | none => "NaN") ++ " mph",
      roadSurface := "Crosswinds may affect vehicle control." }
  else
    { condIcon := "✓", condLabel := "DRY", condColor := "#22c55e",
      condDesc := "Roads clear and dry",
      roadSurface := "Normal driving conditions" }

end ConditionsScreen

/- ===================== Spec classifier (spec-modelled) ===================== -/

/-- Modelled from the spec: the §3 `RoadCondition` category enum
(dry/wet/icy/snow/slush/fog/storm/windy/hazard, plus the "unknown" result the
classifier must return for a missing snapshot); the backend
RoadConditionClassifier is not among the sources. -/
inductive RoadCategory where
  | dry | wet | icy | snow | slush | fog | storm | windy | hazard | unknown
deriving DecidableEq

/-- Modelled from the spec: §3 `RoadCondition` — category, severity 0-3 and
label (recommendation text omitted). -/
structure RoadCondition where
  category : RoadCategory
  severity : Nat
  label : String
deriving DecidableEq

/-- Modelled from the spec: the fields of a §3 `WeatherSnapshot` the §4.5
rules read — temperature (°F), conditions text, wind speed (mph); a snapshot
is never partially populated. -/
structure Snapshot where
  temperature : Int
  conditions : String
  windSpeed : Int
deriving DecidableEq

/-- Rank of the §3 alert severity enum (minor/moderate/severe/extreme). -/
def severityRank (s : String) : Nat :=
  if jsToLower s = "extreme" then 4
  else if jsToLower s = "severe" then 3
  else if jsToLower s = "moderate" then 2
  else if jsToLower s = "minor" then 1
  else 0

/-- The most severe alert of a non-empty list (first among ties). -/
def mostSevereAlert (a : WeatherAlert) (rest : List WeatherAlert) : WeatherAlert :=
  rest.foldl (fun best x =>
    if severityRank x.severity > severityRank best.severity then x else best) a

/-- Modelled from the spec: §4.5 `classify(snapshot) -> RoadCondition`,
evaluated in fixed priority order, with rule 1 (any active alert → hazard,
severity 3, label from the most severe alert's event name) first, and the
required distinct "unknown" result (severity 0, label "no data") for a missing
snapshot; the backend RoadConditionClassifier is not among the sources. -/
def classify (alerts : List WeatherAlert) (snapshot : Option Snapshot) : RoadCondition :=
  match alerts with
  | a :: rest => { category := .hazard, severity := 3, label := (mostSevereAlert a rest).event }
  | [] =>
      match snapshot with
      | none => { category := .unknown, severity := 0, label := "no data" }
      | some s =>
          let c := jsToLower s.conditions
          if s.temperature ≤ 32 ∧ (strIncludes c "rain" || strIncludes c "freezing" ||
              strIncludes c "drizzle") then ⟨.icy, 3, "black ice likely"⟩
          else if s.temperature ≤ 32 ∧ strIncludes c "snow" then ⟨.snow, 2, "snow-covered roads"⟩
          else if 32 < s.temperature ∧ s.temperature ≤ 40 ∧ strIncludes c "snow" then
            ⟨.slush, 2, "slushy conditions"⟩
          else if strIncludes c "fog" || strIncludes c "mist" || strIncludes c "haze" then
            ⟨.fog, 2, "limited visibility"⟩
          else if strIncludes c "rain" || strIncludes c "shower" || strIncludes c "drizzle" then
            ⟨.wet, 1, "wet roads"⟩
          else if strIncludes c "thunder" || strIncludes c "storm" then
            ⟨.storm, 3, "storm conditions"⟩
          else if s.windSpeed > 30 then ⟨.windy, 2, "high winds"⟩
          else ⟨.dry, 0, "dry"⟩

/- ===================== Claim theorems: road-condition classification ===================== -/

/-- C1: an active alert dominates every other rule — the road-condition
derivation labels the waypoint HAZARD whatever the snapshot contains, and the
spec classifier returns category hazard with severity 3. -/
theorem hazard_rule_dominates :
    (∀ wp : ConditionsScreen.WaypointWeather, wp.alerts ≠ [] →
      (ConditionsScreen.deriveRoadCondition wp).condLabel = "HAZARD" ∧
        (ConditionsScreen.deriveRoadCondition wp).condColor = "#ef4444") ∧
    (∀ (alerts : List WeatherAlert) (snapshot : Option Snapshot), alerts ≠ [] →
      (classify alerts snapshot).category = RoadCategory.hazard ∧
        (classify alerts snapshot).severity = 3) := by
  constructor
  · intro wp h
    have hlen : wp.alerts.length > 0 := List.length_pos.mpr h
    simp only [ConditionsScreen.deriveRoadCondition]
    rw [if_pos hlen]
    exact ⟨rfl, rfl⟩
  · intro alerts snapshot h
    cases alerts with
    | nil => exact absurd rfl h
    | cons a rest => exact ⟨rfl, rfl⟩

/-- Witness for C1: a waypoint with a missing snapshot but one active alert is
labelled HAZARD; the spec classifier on an alerted snapshot gives hazard /
severity 3. -/
theorem hazard_rule_dominates_witness :
    ((ConditionsScreen.deriveRoadCondition ⟨none, [⟨"Flood Warning", "h", "Severe"⟩]⟩).condLabel =
        "HAZARD" ∧
      (ConditionsScreen.deriveRoadCondition
          ⟨none, [⟨"Flood Warning", "h", "Severe"⟩]⟩).condColor = "#ef4444") ∧
    ((classify [⟨"id1", "h", "severe", "Flood Warning", "d", none⟩]
          (some ⟨70, "clear", 5⟩)).category = RoadCategory.hazard ∧
      (classify [⟨"id1", "h", "severe", "Flood Warning", "d", none⟩]
          (some ⟨70, "clear", 5⟩)).severity = 3) :=
  ⟨hazard_rule_dominates.1 _ (by simp),
    hazard_rule_dominates.2 [⟨"id1", "h", "severe", "Flood Warning", "d", none⟩]
      (some ⟨70, "clear", 5⟩) (by simp)⟩

/-- C2 (code bug): on a waypoint with no snapshot and no alerts, the
derivation in the source falls through to the verified-dry result (temperature
defaults to 50, conditions to the empty string) instead of the distinct
"unknown / no data" result the spec requires; the spec-modelled classifier
shows the required distinct output. -/
theorem missing_snapshot_classified_dry :
    ConditionsScreen.deriveRoadCondition ⟨none, []⟩ =
      ⟨"✓", "DRY", "#22c55e", "Roads clear and dry", "Normal driving conditions"⟩ ∧
    classify [] none = ⟨RoadCategory.unknown, 0, "no data"⟩ ∧
    (classify [] none).category ≠ RoadCategory.dry := by
  refine ⟨by decide, by decide, by decide⟩

/-- C7 counterexample: a present snapshot reporting "Haze" (50°F, light wind,
no alerts) is labelled DRY by the derivation — not FOG as rule 5 of the claim
("fog/mist/haze gives fog severity 2") requires, because the code matches only
fog/mist. -/
theorem haze_not_classified_fog :
    ConditionsScreen.deriveRoadCondition
        ⟨some ⟨some 50, some "Haze", some "5", some 40⟩, []⟩ =
      ⟨"✓", "DRY", "#22c55e", "Roads clear and dry", "Normal driving conditions"⟩ ∧
    (ConditionsScreen.deriveRoadCondition
        ⟨some ⟨some 50, some "Haze", some "5", some 40⟩, []⟩).condLabel ≠ "FOG" := by
  refine ⟨by decide, by decide⟩

/-- The §4.5 rule table as the claim describes it, amended to what the code
implements: rule 5 matches only fog/mist (not haze), and a temperature reading
of exactly 0°F (like a missing one) is treated as 50°F (`effTemp`); the code
assigns display labels, not numeric severities. -/
def claimedLabel (weather : Option ConditionsScreen.WeatherData) : String :=
  let t := ConditionsScreen.effTemp weather
  let c := ConditionsScreen.condText weather
  if t ≤ 32 ∧ (strIncludes c "rain" || strIncludes c "freezing" || strIncludes c "drizzle") then
    "ICY"
  else if t ≤ 32 ∧ strIncludes c "snow" then "SNOW"
  else if 32 < t ∧ t ≤ 40 ∧ strIncludes c "snow" then "SLUSH"
  else if strIncludes c "fog" || strIncludes c "mist" then "FOG"
  else if strIncludes c "rain" || strIncludes c "shower" || strIncludes c "drizzle" then "WET"
  else if strIncludes c "thunder" || strIncludes c "storm" then "STORM"
  else if ConditionsScreen.windGt30 weather then "WINDY"
  else "DRY"

/-- C7 (amended): on a waypoint with a present snapshot and no alerts, the
derivation evaluates the rules in the claimed fixed order and returns the
first match — icy, snow, slush, fog (fog/mist only), wet, storm
(after wet), windy (wind > 30 mph), otherwise dry — with the 0°F-reads-as-50°F
quirk of `effTemp`. -/
theorem road_rules_fixed_order (wp : ConditionsScreen.WaypointWeather)
    (w : ConditionsScreen.WeatherData) (hA : wp.alerts = [])
    (_hW : wp.weather = some w) :
    (ConditionsScreen.deriveRoadCondition wp).condLabel = claimedLabel wp.weather := by
  simp only [ConditionsScreen.deriveRoadCondition, claimedLabel, hA]
  rw [if_neg (by simp)]
  split_ifs <;> rfl

/-- Witness for the amended C7: 28°F with "Light Rain" is labelled ICY. -/
theorem road_rules_fixed_order_witness :
    (ConditionsScreen.deriveRoadCondition
        ⟨some ⟨some 28, some "Light Rain", some "10", some 80⟩, []⟩).condLabel =
      claimedLabel (some ⟨some 28, some "Light Rain", some "10", some 80⟩) ∧
    claimedLabel (some ⟨some 28, some "Light Rain", some "10", some 80⟩) = "ICY" :=
  ⟨road_rules_fixed_order ⟨some ⟨some 28, some "Light Rain", some "10", some 80⟩, []⟩
      ⟨some 28, some "Light Rain", some "10", some 80⟩ rfl rfl,
    by decide⟩

/- ===================== Safety scorer ===================== -/

/-- Modelled from the spec: the §4.7 vehicle profiles
(car, SUV, pickup, semi-truck, RV/motorhome, motorcycle, vehicle+trailer). -/
inductive VehicleType where
  | car | suv | pickup | semiTruck | rv | motorcycle | trailer
deriving DecidableEq

/-- Modelled from the spec: the §3 risk tiers. -/
inductive RiskLevel where
  | low | moderate | high | critical
deriving DecidableEq

/-- Modelled from the spec: the §4.7 per-severity base penalty
(severity 1 → 3 pts, 2 → 8 pts, 3 → 18 pts). -/
def basePenalty (severity : Nat) : Nat :=
  match severity with
  | 1 => 3
  | 2 => 8
  | 3 => 18
  | _ => 0

/-- Modelled from the spec: the §4.7 vehicle sensitivity scaling — wind
penalty doubled for semi-truck/RV/trailer, ice/snow penalty increased
(modelled as doubled) for motorcycle. -/
def vehicleFactor (category : RoadCategory) (v : VehicleType) : Nat :=
  if category = RoadCategory.windy ∧
      (v = VehicleType.semiTruck ∨ v = VehicleType.rv ∨ v = VehicleType.trailer) then 2
  else if (category = RoadCategory.icy ∨ category = RoadCategory.snow) ∧
      v = VehicleType.motorcycle then 2
  else 1

/-- Modelled from the spec: the §4.7 SafetyScorer overall score — baseline
100, subtract the (vehicle-scaled) penalty of each classified waypoint, clamp
to [0, 100]; the backend SafetyScorer is not among the sources. -/
def overallScore (l : List RoadCondition) (v : VehicleType) : Int :=
  max 0 (min 100
    (100 - (l.map (fun rc => ((basePenalty rc.severity * vehicleFactor rc.category v : Nat) :
      Int))).sum))

/-- Modelled from the spec: the §4.7 risk tiers — score ≥80 low, ≥60
moderate, ≥40 high, otherwise critical. -/
def riskLevel (score : Int) : RiskLevel :=
  if score ≥ 80 then RiskLevel.low
  else if score ≥ 60 then RiskLevel.moderate
  else if score ≥ 40 then RiskLevel.high
  else RiskLevel.critical

/-- `getSafetyColor` from `src/unnamed/part_002` (lines 1260-1265). -/
def getSafetyColor (score : Int) : String :=
  if score ≥ 80 then "#22c55e"
  else if score ≥ 60 then "#eab308"
  else if score ≥ 40 then "#f97316"
  else "#ef4444"

theorem penalty_sum_nonneg (l : List RoadCondition) (v : VehicleType) :
    0 ≤ (l.map (fun rc => ((basePenalty rc.severity * vehicleFactor rc.category v : Nat) :
      Int))).sum := by
  induction l with
  | nil => simp
  | cons rc l ih =>
      rw [List.map_cons, List.sum_cons]
      have h := Int.natCast_nonneg (basePenalty rc.severity * vehicleFactor rc.category v)
      omega

/- ===================== Claim theorems: safety scoring ===================== -/

/-- C8: the safety score is always within [0, 100]; an all-dry route scores
exactly 100; a route of severity-3 hazards scores `max 0 (100 - 18n)` for
every vehicle type (0 as soon as n ≥ 6); the risk level follows the claimed
thresholds, and the source's `getSafetyColor` colours scores exactly by those
tiers. -/
theorem safety_score_bounds :
    (∀ (l : List RoadCondition) (v : VehicleType),
      0 ≤ overallScore l v ∧ overallScore l v ≤ 100) ∧
    (∀ (l : List RoadCondition) (v : VehicleType),
      (∀ rc ∈ l, rc.category = RoadCategory.dry ∧ rc.severity = 0) →
      overallScore l v = 100) ∧
    (∀ (l : List RoadCondition) (v : VehicleType),
      (∀ rc ∈ l, rc.category = RoadCategory.hazard ∧ rc.severity = 3) →
      overallScore l v = max 0 (100 - 18 * l.length)) ∧
    (∀ score : Int,
      (score ≥ 80 → riskLevel score = RiskLevel.low) ∧
      (60 ≤ score ∧ score < 80 → riskLevel score = RiskLevel.moderate) ∧
      (40 ≤ score ∧ score < 60 → riskLevel score = RiskLevel.high) ∧
      (score < 40 → riskLevel score = RiskLevel.critical)) ∧
    (∀ score : Int, getSafetyColor score =
      match riskLevel score with
      | RiskLevel.low => "#22c55e"
      | RiskLevel.moderate => "#eab308"
      | RiskLevel.high => "#f97316"
      | RiskLevel.critical => "#ef4444") := by
  refine ⟨?_, ?_, ?_, ?_, ?_⟩
  · intro l v
    have h := penalty_sum_nonneg l v
    unfold overallScore
    omega
  · intro l v h
    have hsum : (l.map (fun rc => ((basePenalty rc.severity * vehicleFactor rc.category v : Nat) :
        Int))).sum = 0 := by
      induction l with
      | nil => simp
      | cons rc l ih =>
          rw [List.map_cons, List.sum_cons]
          have h1 := h rc (List.mem_cons_self _ _)
          have h2 : basePenalty rc.severity = 0 := by rw [h1.2]; rfl
          rw [h2]
          have h3 := ih (fun q hq => h q (List.mem_cons_of_mem _ hq))
          simpa using h3
    unfold overallScore
    rw [hsum]
    rfl
  · intro l v h
    have hsum : (l.map (fun rc => ((basePenalty rc.severity * vehicleFactor rc.category v : Nat) :
        Int))).sum = 18 * l.length := by
      induction l with
      | nil => simp
      | cons rc l ih =>
          rw [List.map_cons, List.sum_cons]
          have h1 := h rc (List.mem_cons_self _ _)
          have h2 : basePenalty rc.severity = 18 := by rw [h1.2]; rfl
          have h3 : vehicleFactor rc.category v = 1 := by
            rw [h1.1]
            unfold vehicleFactor
            rw [if_neg (by rintro ⟨hc, -⟩; cases hc), if_neg (by
              rintro ⟨hc, -⟩
              rcases hc with hc | hc <;> cases hc)]
          rw [h2, h3]
          have h4 := ih (fun q hq => h q (List.mem_cons_of_mem _ hq))
          rw [h4]
          simp [List.length_cons]
          ring
    unfold overallScore
    rw [hsum]
    have hlen := l.length
    omega
  · intro score
    unfold riskLevel
    refine ⟨fun h => by rw [if_pos h], fun h => ?_, fun h => ?_, fun h => ?_⟩
    · rw [if_neg (by omega), if_pos (by omega)]
    · rw [if_neg (by omega), if_neg (by omega), if_pos (by omega)]
    · rw [if_neg (by omega), if_neg (by omega), if_neg (by omega)]
  · intro score
    unfold getSafetyColor riskLevel
    split_ifs <;> rfl

/-- Witness for C8: concrete evaluations — the empty (hence all-dry) route
scores 100 for a car, and a five-hazard route scores 10 = max 0 (100 - 90)
for a semi-truck. -/
theorem safety_score_bounds_witness :
    (0 ≤ overallScore [⟨RoadCategory.hazard, 3, "x"⟩] VehicleType.car ∧
      overallScore [⟨RoadCategory.hazard, 3, "x"⟩] VehicleType.car ≤ 100) ∧
    overallScore [⟨RoadCategory.dry, 0, "dry"⟩, ⟨RoadCategory.dry, 0, "dry"⟩]
      VehicleType.motorcycle = 100 ∧
    overallScore (List.replicate 5 ⟨RoadCategory.hazard, 3, "x"⟩) VehicleType.semiTruck =
      max 0 (100 - 18 * (List.replicate 5
        (⟨RoadCategory.hazard, 3, "x"⟩ : RoadCondition)).length) ∧
    ((70 : Int) ≥ 80 → riskLevel 70 = RiskLevel.low) ∧
    getSafetyColor 55 =
      (match riskLevel 55 with
      | RiskLevel.low => "#22c55e"
      | RiskLevel.moderate => "#eab308"
      | RiskLevel.high => "#f97316"
      | RiskLevel.critical => "#ef4444") :=
  ⟨safety_score_bounds.1 _ _,
    safety_score_bounds.2.1 _ VehicleType.motorcycle (by decide),
    safety_score_bounds.2.2.1 _ VehicleType.semiTruck (by decide),
    (safety_score_bounds.2.2.2.1 70).1,
    safety_score_bounds.2.2.2.2 55⟩

/- ===================== Premium status (from the source) ===================== -/

/-- The `PremiumStatus` record of `src/unnamed/part_000`: `isPremium`, an
optional plan, and an optional `expiresAt`.  The stored `expiresAt` string is
modelled by what `new Date(...)` makes of it: `none` — the field is absent (or
falsy, e.g. the empty string), `some none` — the string parses to an Invalid
Date (`NaN`, which compares false against any date), `some (some t)` — a
timestamp `t` in epoch milliseconds. -/
structure PremiumStatus where
  isPremium : Bool
  plan : Option String
  expiresAt : Option (Option Int)
deriving DecidableEq

/-- The possible outcomes of `AsyncStorage.getItem` + `JSON.parse` in
`getPremiumStatus` (both are external collaborator calls): the read throws,
the key is missing (`null`), the stored JSON fails to parse (throws), or a
status record is obtained. -/
inductive StoredRead where
  | readError
  | missing
  | parseError
  | ok (status : PremiumStatus)
deriving DecidableEq

/-- `getPremiumStatus` from `src/unnamed/part_000` (lines 11-30): any throw or
a missing key yields `{isPremium: false}`; a stored status with a truthy
`expiresAt` whose date is strictly before `now` yields `{isPremium: false}`;
otherwise the stored status is returned unchanged. -/
def getPremiumStatus (read : StoredRead) (now : Int) : PremiumStatus :=
  match read with
  | StoredRead.readError => ⟨false, none, none⟩
  | StoredRead.missing => ⟨false, none, none⟩
  | StoredRead.parseError => ⟨false, none, none⟩
  | StoredRead.ok status =>
      match status.expiresAt with
      | none => status
      | some d =>
          match d with
          | none => status
          | some t => if t < now then ⟨false, none, none⟩ else status

/- ===================== Claim theorem: premium status ===================== -/

/-- C10: `getPremiumStatus` returns `{isPremium := false}` when nothing is
stored, when the stored value fails to read or parse, and when the stored
status expires strictly before `now`; in every other case (no expiry, an
unparseable expiry date, or an expiry at or after `now`) the stored status is
returned unchanged. -/
theorem getPremiumStatus_spec (now : Int) :
    getPremiumStatus StoredRead.readError now = ⟨false, none, none⟩ ∧
    getPremiumStatus StoredRead.missing now = ⟨false, none, none⟩ ∧
    getPremiumStatus StoredRead.parseError now = ⟨false, none, none⟩ ∧
    (∀ (st : PremiumStatus) (t : Int), st.expiresAt = some (some t) → t < now →
      getPremiumStatus (StoredRead.ok st) now = ⟨false, none, none⟩) ∧
    (∀ st : PremiumStatus,
      (st.expiresAt = none ∨ st.expiresAt = some none ∨
        (∃ t, st.expiresAt = some (some t) ∧ ¬ t < now)) →
      getPremiumStatus (StoredRead.ok st) now = st) := by
  refine ⟨rfl, rfl, rfl, ?_, ?_⟩
  · intro st t he hlt
    obtain ⟨ip, pl, ex⟩ := st
    have he2 : ex = some (some t) := he
    subst he2
    simp only [getPremiumStatus]
    rw [if_pos hlt]
  · intro st h
    obtain ⟨ip, pl, ex⟩ := st
    rcases h with h | h | ⟨t, he, hge⟩
    · have h2 : ex = none := h
      subst h2
      rfl
    · have h2 : ex = some none := h
      subst h2
      rfl
    · have he2 : ex = some (some t) := he
      subst he2
      simp only [getPremiumStatus]
      rw [if_neg hge]

/-- Witness for C10 at concrete inputs: an expired yearly plan is reset, an
unexpired one is returned unchanged. -/
theorem getPremiumStatus_spec_witness :
    getPremiumStatus StoredRead.missing 1000 = ⟨false, none, none⟩ ∧
    getPremiumStatus (StoredRead.ok ⟨true, some "yearly", some (some 500)⟩) 1000 =
      ⟨false, none, none⟩ ∧
    getPremiumStatus (StoredRead.ok ⟨true, some "yearly", some (some 2000)⟩) 1000 =
      ⟨true, some "yearly", some (some 2000)⟩ :=
  ⟨(getPremiumStatus_spec 1000).2.1,
    (getPremiumStatus_spec 1000).2.2.2.1 ⟨true, some "yearly", some (some 500)⟩ 500 rfl
      (by norm_num),
    (getPremiumStatus_spec 1000).2.2.2.2 ⟨true, some "yearly", some (some 2000)⟩
      (Or.inr (Or.inr ⟨2000, rfl, by norm_num⟩))⟩
